import Mathlib

/-!
Verification of the Finitude occurrence-calculation and card-rotation engine.

The calculation utilities (`calculateRemainingOccurrences`,
`convertFrequencyToYearly`, `getCurrentAge`, `getYearsRemaining`,
`calculateTotalOccurrences`, `calculateCompletionPercentage`) are embedded
from the calculations module; the divergent legacy duplicates
(`getCurrentAge` / `getYearsRemaining` / `convertToYearlyFrequency`) from
`src/utils/dataLoader.js` are embedded under `dataLoader_`-prefixed names.
The card sequencer (`nextCard`, `prevCard`, `handleTouchEnd`, the autoplay
timers) is embedded from `src/Finitude.js` as a state machine on `SeqState`.

JavaScript numbers are modelled as rationals (`ℚ`), `Math.floor` as
`Int.floor`, `Math.round` as `round` (both round half toward +∞), and a
possibly-`undefined` numeric field as `Option ℚ` with the JS falsiness of
`0` made explicit where the source uses `||` or `!`.
-/

/-- A user profile: birth year/month and a (possibly fractional) life
expectancy, as read from the profile JSON. -/
structure Profile where
  birth_year : Int
  birth_month : Int
  life_expectancy_years : ℚ
deriving DecidableEq

/-- The current date as the source reads it from `new Date()`:
`getFullYear()` and `getMonth() + 1` (1-indexed month). It is passed
explicitly here so that the age functions are pure. -/
structure AsOfDate where
  year : Int
  month : Int
deriving DecidableEq

/-- A frequency descriptor `{times, period}`. -/
structure Frequency where
  times : ℚ
  period : String
deriving DecidableEq

/-- An activity's active age range `{start, end, flexible_end}`; `start`
and `end` may be absent (`undefined` in JS). -/
structure AgeRange where
  start : Option ℚ
  rangeEnd : Option ℚ
  flexible_end : Bool
deriving DecidableEq

/-- The part of an activity record the calculation utilities read. -/
structure Activity where
  frequency : Frequency
  age_range : AgeRange
deriving DecidableEq

/-- JS `x || d` for a possibly-`undefined` numeric field `x`: yields `d`
when `x` is `undefined` or `0` (both falsy), else the stored value. -/
def jsOr (x : Option ℚ) (d : ℚ) : ℚ :=
  match x with
  | none => d
  | some v => if v = 0 then d else v

/-- The `multipliers` lookup table of `convertFrequencyToYearly`. -/
def multipliers : List (String × ℚ) :=
  [("day", 365), ("week", 52), ("month", 12), ("year", 1)]

/-- `convertFrequencyToYearly` from the calculations module:
`frequency.times * (multipliers[frequency.period] || 1)`. -/
def convertFrequencyToYearly (f : Frequency) : ℚ :=
  f.times * ((multipliers.lookup f.period).getD 1)

/-- `convertToYearlyFrequency` from `dataLoader.js` (same body as
`convertFrequencyToYearly`). -/
def convertToYearlyFrequency (f : Frequency) : ℚ :=
  f.times * ((multipliers.lookup f.period).getD 1)

/-- `getCurrentAge` from the calculations module: `year - birth_year`,
minus one when the current month is before the birth month. -/
def getCurrentAge (p : Profile) (d : AsOfDate) : Int :=
  let age := d.year - p.birth_year
  if d.month < p.birth_month then age - 1 else age

/-- `getYearsRemaining` from the calculations module:
`Math.max(0, life_expectancy.years - currentAge)`. -/
def getYearsRemaining (p : Profile) (d : AsOfDate) : ℚ :=
  max 0 (p.life_expectancy_years - (getCurrentAge p d : ℚ))

/-- `getCurrentAge` from `dataLoader.js`: `currentYear - birth_year`,
with no birth-month adjustment. -/
def dataLoader_getCurrentAge (p : Profile) (d : AsOfDate) : Int :=
  d.year - p.birth_year

/-- `getYearsRemaining` from `dataLoader.js`:
`life_expectancy.years - currentAge`, with no clamping at zero. -/
def dataLoader_getYearsRemaining (p : Profile) (d : AsOfDate) : ℚ :=
  p.life_expectancy_years - (dataLoader_getCurrentAge p d : ℚ)

/-- The resolved activity end age used by both occurrence calculators:
the life expectancy when `flexible_end` is truthy, else
`age_range.end || lifeExpectancy`. -/
def resolveEndAge (a : Activity) (lifeExpectancy : ℚ) : ℚ :=
  if a.age_range.flexible_end then lifeExpectancy
  else jsOr a.age_range.rangeEnd lifeExpectancy

/-- `calculateRemainingOccurrences` from the calculations module. -/
def calculateRemainingOccurrences (a : Activity) (p : Profile) (d : AsOfDate) : Int :=
  let currentAge : ℚ := (getCurrentAge p d : ℚ)
  let activityEndAge := resolveEndAge a p.life_expectancy_years
  let activityStartAge := max (jsOr a.age_range.start 0) currentAge
  if activityEndAge ≤ currentAge then 0
  else Int.floor ((activityEndAge - activityStartAge) * convertFrequencyToYearly a.frequency)

/-- `calculateTotalOccurrences` from the calculations module. -/
def calculateTotalOccurrences (a : Activity) (p : Profile) : Int :=
  let activityEndAge := resolveEndAge a p.life_expectancy_years
  let activityStartAge := jsOr a.age_range.start 0
  let totalYears := max 0 (activityEndAge - activityStartAge)
  Int.floor (totalYears * convertFrequencyToYearly a.frequency)

/-- `calculateCompletionPercentage` from the calculations module. -/
def calculateCompletionPercentage (a : Activity) (p : Profile) (d : AsOfDate) : Int :=
  let total := calculateTotalOccurrences a p
  let remaining := calculateRemainingOccurrences a p d
  if total = 0 then 100
  else round ((((total - remaining : Int) : ℚ) / (total : ℚ)) * 100)

/-- JS `a % b` (truncated remainder, sign of the dividend) for a positive
modulus `b`, as used on card indices in `Finitude.js`. -/
def jsRem (a b : Int) : Int :=
  if a < 0 then -((-a) % b) else a % b

/-- The sequencer state owned by the `Finitude` component: the focused
card index, the progress ratio, and the autoplay flag. -/
structure SeqState where
  currentCard : Int
  progress : Nat
  isAutoPlaying : Bool
deriving DecidableEq

/-- The component's initial state: `useState(0)`, `useState(true)`,
`useState(0)`. -/
def initState : SeqState :=
  { currentCard := 0, progress := 0, isAutoPlaying := true }

/-- `nextCard` from `Finitude.js`: when the card list is non-empty, move
focus to `(prev + 1) % length` and reset progress. -/
def nextCard (len : Nat) (s : SeqState) : SeqState :=
  if 0 < len then
    { s with currentCard := jsRem (s.currentCard + 1) len, progress := 0 }
  else s

/-- `prevCard` from `Finitude.js`: when the card list is non-empty, move
focus to `(prev - 1 + length) % length` and reset progress. -/
def prevCard (len : Nat) (s : SeqState) : SeqState :=
  if 0 < len then
    { s with currentCard := jsRem (s.currentCard - 1 + len) len, progress := 0 }
  else s

/-- `handleTouchEnd` from `Finitude.js`. `touchStart`/`touchEnd` are the
recorded `clientX` coordinates (`null` when not recorded); the guard
`!touchStart || !touchEnd` also fires on a recorded coordinate of `0`
(JS falsiness). `distance = touchStart - touchEnd`; a distance above `50`
is a left swipe (next), below `-50` a right swipe (prev). -/
def handleTouchEnd (len : Nat) (touchStart touchEnd : Option ℚ)
    (s : SeqState) : SeqState :=
  if jsOr touchStart 0 = 0 ∨ jsOr touchEnd 0 = 0 then s
  else
    let distance := jsOr touchStart 0 - jsOr touchEnd 0
    if 50 < distance then nextCard len s
    else if distance < -50 then prevCard len s
    else s

/-- The timer and interaction events that mutate the sequencer state. -/
inductive Ev
  | progressTimer
  | rotateTimer
  | nextBtn
  | prevBtn
  | cardClick

/-- One event step of the sequencer. The two timers are armed only while
`isAutoPlaying` (and the rotation interval only exists for a non-empty
card list, per the `useEffect` guard). The progress timer runs
`prev >= 100 ? 0 : prev + 1`; the rotation timer advances the card and
resets progress; `handleCardClick` toggles autoplay, after which the
`useEffect` runs `startAutoPlay`/`stopAutoPlay`, both of which reset
progress to 0. -/
def step (len : Nat) : Ev → SeqState → SeqState
  | Ev.progressTimer, s =>
      if s.isAutoPlaying then
        { s with progress := if 100 ≤ s.progress then 0 else s.progress + 1 }
      else s
  | Ev.rotateTimer, s =>
      if s.isAutoPlaying ∧ 0 < len then
        { s with currentCard := jsRem (s.currentCard + 1) len, progress := 0 }
      else s
  | Ev.nextBtn, s => nextCard len s
  | Ev.prevBtn, s => prevCard len s
  | Ev.cardClick, s => { s with isAutoPlaying := !s.isAutoPlaying, progress := 0 }

/-- The states the sequencer can reach from its initial state under any
interleaving of timer and interaction events. -/
inductive Reachable (len : Nat) : SeqState → Prop
  | init : Reachable len initState
  | next (s : SeqState) (e : Ev) : Reachable len s → Reachable len (step len e s)

/-- The yearly multiplier exactly as the spec words it: 365 for `day`,
52 for `week`, 12 for `month`, 1 for `year`, and a default of 1 for any
other period. -/
def specYearlyMultiplier (p : String) : ℚ :=
  if p = "day" then 365
  else if p = "week" then 52
  else if p = "month" then 12
  else if p = "year" then 1
  else 1

lemma lookup_multipliers_eq (p : String) :
    ((multipliers.lookup p).getD 1) = specYearlyMultiplier p := by
  by_cases h1 : p = "day"
  · simp [multipliers, List.lookup, h1, specYearlyMultiplier]
  · by_cases h2 : p = "week"
    · simp [multipliers, List.lookup, h1, h2, specYearlyMultiplier]
    · by_cases h3 : p = "month"
      · simp [multipliers, List.lookup, h1, h2, h3, specYearlyMultiplier]
      · by_cases h4 : p = "year"
        · simp [multipliers, List.lookup, h1, h2, h3, h4, specYearlyMultiplier]
        · have e1 : (p == "day") = false := beq_eq_false_iff_ne.mpr h1
          have e2 : (p == "week") = false := beq_eq_false_iff_ne.mpr h2
          have e3 : (p == "month") = false := beq_eq_false_iff_ne.mpr h3
          have e4 : (p == "year") = false := beq_eq_false_iff_ne.mpr h4
          simp [multipliers, List.lookup, e1, e2, e3, e4, specYearlyMultiplier, h1, h2, h3, h4]

lemma specYearlyMultiplier_pos (p : String) : 0 < specYearlyMultiplier p := by
  unfold specYearlyMultiplier
  split_ifs <;> norm_num

/-- C6: For every frequency `{times: t, period: p}`, the yearly-rate
conversion returns `t` multiplied by 365 for `day`, 52 for `week`, 12 for
`month`, and 1 for `year`; for any period outside this set the multiplier
defaults to 1 and no error is raised (both copies of the conversion — the
calculations module's and the data loader's — are total functions with
this behavior). -/
theorem C6_yearly_rate (f : Frequency) :
    convertFrequencyToYearly f = f.times * specYearlyMultiplier f.period ∧
    convertToYearlyFrequency f = f.times * specYearlyMultiplier f.period := by
  constructor
  · unfold convertFrequencyToYearly
    rw [lookup_multipliers_eq]
  · unfold convertToYearlyFrequency
    rw [lookup_multipliers_eq]

/-- C5 counterexample: the claim says current age is decremented by 1
exactly when the as-of month is before the birth month, but the
`dataLoader.js` copy of `getCurrentAge` (one of the claim's cited
symbols) never decrements: born December 1990, asked in January 2020 it
answers 30, not the claimed 29. -/
theorem C5_counterexample :
    (1 : Int) < (12 : Int) ∧
    dataLoader_getCurrentAge ⟨1990, 12, 80⟩ ⟨2020, 1⟩ = 30 ∧
    dataLoader_getCurrentAge ⟨1990, 12, 80⟩ ⟨2020, 1⟩ ≠ 2020 - 1990 - 1 := by
  refine ⟨by norm_num, by decide, by decide⟩

/-- C5 (amended): the calculations module's `getCurrentAge` returns
`asOfDate.year - birthYear`, decremented by 1 exactly when
`asOfDate.month < birthMonth`; the `dataLoader.js` copy returns
`asOfDate.year - birthYear` with no birth-month decrement. -/
theorem C5_current_age (p : Profile) (d : AsOfDate) :
    getCurrentAge p d =
      (if d.month < p.birth_month then d.year - p.birth_year - 1
       else d.year - p.birth_year) ∧
    dataLoader_getCurrentAge p d = d.year - p.birth_year := by
  exact ⟨rfl, rfl⟩

/-- C4 counterexample: the claim says years remaining equals
`max(0, lifeExpectancyYears - currentAge)` and is never negative, but the
`dataLoader.js` copy of `getYearsRemaining` (one of the claim's cited
symbols) does not clamp: life expectancy 70 and age 76 give -6. -/
theorem C4_counterexample :
    dataLoader_getYearsRemaining ⟨1950, 1, 70⟩ ⟨2026, 6⟩ = -6 ∧
    dataLoader_getYearsRemaining ⟨1950, 1, 70⟩ ⟨2026, 6⟩ < 0 := by
  constructor
  · norm_num [dataLoader_getYearsRemaining, dataLoader_getCurrentAge]
  · norm_num [dataLoader_getYearsRemaining, dataLoader_getCurrentAge]

/-- C4 (amended): the calculations module's `getYearsRemaining` equals
`max(0, lifeExpectancyYears - currentAge)` and is never negative; the
`dataLoader.js` copy returns the unclamped difference
`lifeExpectancyYears - currentAge`, which can be negative. -/
theorem C4_years_remaining (p : Profile) (d : AsOfDate) :
    getYearsRemaining p d =
      max 0 (p.life_expectancy_years - (getCurrentAge p d : ℚ)) ∧
    0 ≤ getYearsRemaining p d ∧
    dataLoader_getYearsRemaining p d =
      p.life_expectancy_years - (dataLoader_getCurrentAge p d : ℚ) := by
  exact ⟨rfl, le_max_left 0 _, rfl⟩

/-- The activity end age as C1's sentence literally reads: the profile's
life expectancy when the range end is flexible or absent, else the stated
end. -/
def claimC1EndAge (a : Activity) (lifeExpectancy : ℚ) : ℚ :=
  if a.age_range.flexible_end then lifeExpectancy
  else
    match a.age_range.rangeEnd with
    | none => lifeExpectancy
    | some e => e

/-- Remaining occurrences as C1's sentence literally reads, built on
`claimC1EndAge`. -/
def claimC1Remaining (a : Activity) (p : Profile) (d : AsOfDate) : Int :=
  let currentAge : ℚ := (getCurrentAge p d : ℚ)
  let activityEndAge := claimC1EndAge a p.life_expectancy_years
  let activityStartAge := max (jsOr a.age_range.start 0) currentAge
  if activityEndAge ≤ currentAge then 0
  else Int.floor ((activityEndAge - activityStartAge) * convertFrequencyToYearly a.frequency)

/-- Remaining occurrences as amended: a stated, non-flexible end of `0`
is falsy in the source's `activity.age_range.end || lifeExpectancy` and
therefore also resolves to the life expectancy. -/
def amendedC1Remaining (a : Activity) (p : Profile) (d : AsOfDate) : Int :=
  let currentAge : ℚ := (getCurrentAge p d : ℚ)
  let activityEndAge :=
    if a.age_range.flexible_end then p.life_expectancy_years
    else
      match a.age_range.rangeEnd with
      | none => p.life_expectancy_years
      | some e => if e = 0 then p.life_expectancy_years else e
  let activityStartAge := max (jsOr a.age_range.start 0) currentAge
  if activityEndAge ≤ currentAge then 0
  else Int.floor ((activityEndAge - activityStartAge) * convertFrequencyToYearly a.frequency)

/-- C1 counterexample: for a non-flexible range whose stated end is `0`
(a valid number, not absent), the code resolves the end age to the life
expectancy (JS `||` falsiness) and returns 50 occurrences for a
30-year-old with life expectancy 80 at 1/year, while the claim's formula
says the activity has lapsed (`currentAge >= 0`) and returns 0. -/
theorem C1_counterexample :
    calculateRemainingOccurrences ⟨⟨1, "year"⟩, ⟨none, some 0, false⟩⟩
        ⟨1990, 1, 80⟩ ⟨2020, 6⟩ = 50 ∧
    claimC1Remaining ⟨⟨1, "year"⟩, ⟨none, some 0, false⟩⟩
        ⟨1990, 1, 80⟩ ⟨2020, 6⟩ = 0 ∧
    calculateRemainingOccurrences ⟨⟨1, "year"⟩, ⟨none, some 0, false⟩⟩
        ⟨1990, 1, 80⟩ ⟨2020, 6⟩ ≠
      claimC1Remaining ⟨⟨1, "year"⟩, ⟨none, some 0, false⟩⟩
        ⟨1990, 1, 80⟩ ⟨2020, 6⟩ := by
  refine ⟨?_, ?_, ?_⟩
  · simp only [calculateRemainingOccurrences, resolveEndAge, jsOr, getCurrentAge,
      convertFrequencyToYearly, lookup_multipliers_eq, specYearlyMultiplier]
    simp
    norm_num
  · norm_num [claimC1Remaining, claimC1EndAge, jsOr, getCurrentAge]
  · simp only [calculateRemainingOccurrences, claimC1Remaining, claimC1EndAge,
      resolveEndAge, jsOr, getCurrentAge, convertFrequencyToYearly,
      lookup_multipliers_eq, specYearlyMultiplier]
    simp
    norm_num

/-- C1 (amended): `calculateRemainingOccurrences` returns 0 when
`currentAge >= activityEndAge`, and otherwise
`floor((activityEndAge - activityStartAge) * yearlyRate(frequency))` with
`activityStartAge = max(range.start, currentAge)`, where `activityEndAge`
is the profile's life expectancy if the range end is flexible, absent,
or a stated `0` (falsy under the source's `||` default), and the stated
end otherwise. -/
theorem C1_remaining_occurrences (a : Activity) (p : Profile) (d : AsOfDate) :
    calculateRemainingOccurrences a p d = amendedC1Remaining a p d := by
  unfold calculateRemainingOccurrences amendedC1Remaining resolveEndAge jsOr
  rfl

lemma convertFrequencyToYearly_nonneg (f : Frequency) (h : 0 ≤ f.times) :
    0 ≤ convertFrequencyToYearly f := by
  unfold convertFrequencyToYearly
  rw [lookup_multipliers_eq]
  exact mul_nonneg h (le_of_lt (specYearlyMultiplier_pos f.period))

/-- C2 counterexample: an activity whose stated range runs from 50 down
to 40, at 1/week, for a 30-year-old with life expectancy 80: the current
age (30) is below the end age (40), so the formula runs with
`activityStartAge = max(50, 30) = 50` and yields
`floor((40 - 50) * 52) = -520`, a negative result. -/
theorem C2_counterexample :
    calculateRemainingOccurrences ⟨⟨1, "week"⟩, ⟨some 50, some 40, false⟩⟩
        ⟨1990, 1, 80⟩ ⟨2020, 6⟩ = -520 ∧
    calculateRemainingOccurrences ⟨⟨1, "week"⟩, ⟨some 50, some 40, false⟩⟩
        ⟨1990, 1, 80⟩ ⟨2020, 6⟩ < 0 := by
  constructor
  · simp only [calculateRemainingOccurrences, resolveEndAge, jsOr, getCurrentAge,
      convertFrequencyToYearly, lookup_multipliers_eq, specYearlyMultiplier]
    simp
    norm_num
  · simp only [calculateRemainingOccurrences, resolveEndAge, jsOr, getCurrentAge,
      convertFrequencyToYearly, lookup_multipliers_eq, specYearlyMultiplier]
    simp
    norm_num

/-- C2 (amended): the result of `calculateRemainingOccurrences` is an
integer, and it is non-negative provided the frequency's `times` is
non-negative (the data model requires a positive number) and the
activity's resolved start age does not exceed its resolved end age
(`range.start ≤ activityEndAge`); without the latter proviso the formula
can go negative, as the counterexample shows. -/
theorem C2_remaining_nonneg (a : Activity) (p : Profile) (d : AsOfDate)
    (ht : 0 ≤ a.frequency.times)
    (hs : jsOr a.age_range.start 0 ≤ resolveEndAge a p.life_expectancy_years) :
    0 ≤ calculateRemainingOccurrences a p d := by
  simp only [calculateRemainingOccurrences]
  split_ifs with h
  · exact le_refl 0
  · have hc : (getCurrentAge p d : ℚ) < resolveEndAge a p.life_expectancy_years :=
      lt_of_not_le h
    have hmax : max (jsOr a.age_range.start 0) (getCurrentAge p d : ℚ) ≤
        resolveEndAge a p.life_expectancy_years := max_le hs (le_of_lt hc)
    have hspan : (0 : ℚ) ≤ resolveEndAge a p.life_expectancy_years -
        max (jsOr a.age_range.start 0) (getCurrentAge p d : ℚ) := by linarith
    exact Int.floor_nonneg.mpr
      (mul_nonneg hspan (convertFrequencyToYearly_nonneg a.frequency ht))

/-- Witness for `C2_remaining_nonneg` at a lifetime-range weekly activity
and a 30-year-old with life expectancy 80. -/
theorem C2_remaining_nonneg_witness :
    (0 : ℚ) ≤ (Frequency.mk 1 "week").times ∧
    jsOr (AgeRange.mk none none true).start 0 ≤
      resolveEndAge ⟨⟨1, "week"⟩, ⟨none, none, true⟩⟩ (80 : ℚ) ∧
    0 ≤ calculateRemainingOccurrences ⟨⟨1, "week"⟩, ⟨none, none, true⟩⟩
        ⟨1990, 1, 80⟩ ⟨2020, 6⟩ :=
  ⟨by norm_num,
   by norm_num [jsOr, resolveEndAge],
   C2_remaining_nonneg ⟨⟨1, "week"⟩, ⟨none, none, true⟩⟩ ⟨1990, 1, 80⟩ ⟨2020, 6⟩
     (by norm_num) (by norm_num [jsOr, resolveEndAge])⟩

/-- C10: for every activity whose frequency yields a non-negative yearly
rate, the remaining occurrences never exceed the total lifetime
occurrences, so the completed count `total - remaining` is never
negative. -/
theorem C10_remaining_le_total (a : Activity) (p : Profile) (d : AsOfDate)
    (hr : 0 ≤ convertFrequencyToYearly a.frequency) :
    calculateRemainingOccurrences a p d ≤ calculateTotalOccurrences a p := by
  simp only [calculateRemainingOccurrences, calculateTotalOccurrences]
  split_ifs with h
  · exact Int.floor_nonneg.mpr (mul_nonneg (le_max_left 0 _) hr)
  · apply Int.floor_le_floor
    apply mul_le_mul_of_nonneg_right _ hr
    calc resolveEndAge a p.life_expectancy_years -
          max (jsOr a.age_range.start 0) ((getCurrentAge p d : ℚ)) ≤
        resolveEndAge a p.life_expectancy_years - jsOr a.age_range.start 0 :=
          sub_le_sub_left (le_max_left _ _) _
      _ ≤ max 0 (resolveEndAge a p.life_expectancy_years - jsOr a.age_range.start 0) :=
          le_max_right _ _

/-- Witness for `C10_remaining_le_total` at a weekly lifetime activity
and a 30-year-old with life expectancy 80. -/
theorem C10_remaining_le_total_witness :
    0 ≤ convertFrequencyToYearly (Frequency.mk 1 "week") ∧
    calculateRemainingOccurrences ⟨⟨1, "week"⟩, ⟨none, none, true⟩⟩
        ⟨1990, 1, 80⟩ ⟨2020, 6⟩ ≤
      calculateTotalOccurrences ⟨⟨1, "week"⟩, ⟨none, none, true⟩⟩ ⟨1990, 1, 80⟩ :=
  ⟨by simp [convertFrequencyToYearly, lookup_multipliers_eq, specYearlyMultiplier],
   C10_remaining_le_total ⟨⟨1, "week"⟩, ⟨none, none, true⟩⟩ ⟨1990, 1, 80⟩ ⟨2020, 6⟩
     (by simp [convertFrequencyToYearly, lookup_multipliers_eq, specYearlyMultiplier])⟩

lemma remaining_eq (a : Activity) (p : Profile) (d : AsOfDate) :
    calculateRemainingOccurrences a p d =
      (if resolveEndAge a p.life_expectancy_years ≤ ((getCurrentAge p d : Int) : ℚ)
       then (0 : Int)
       else Int.floor ((resolveEndAge a p.life_expectancy_years -
          max (jsOr a.age_range.start 0) ((getCurrentAge p d : Int) : ℚ)) *
          convertFrequencyToYearly a.frequency)) := rfl

lemma total_eq (a : Activity) (p : Profile) :
    calculateTotalOccurrences a p =
      Int.floor (max 0 (resolveEndAge a p.life_expectancy_years -
          jsOr a.age_range.start 0) * convertFrequencyToYearly a.frequency) := rfl

lemma floor_span_pos {E s0 c r : ℚ} (h : 0 < Int.floor (max 0 (E - s0) * r)) :
    0 ≤ (if E ≤ c then (0 : Int) else Int.floor ((E - max s0 c) * r)) ∧
    (if E ≤ c then (0 : Int) else Int.floor ((E - max s0 c) * r)) ≤
      Int.floor (max 0 (E - s0) * r) := by
  have hAr : (0 : ℚ) < max 0 (E - s0) * r := by
    by_contra hle
    push_neg at hle
    have := Int.floor_nonpos hle
    omega
  have hApos : (0 : ℚ) < max 0 (E - s0) := by
    rcases lt_or_eq_of_le (le_max_left 0 (E - s0)) with h' | h'
    · exact h'
    · rw [← h', zero_mul] at hAr
      exact absurd hAr (lt_irrefl 0)
  have hrpos : 0 < r := by
    rcases mul_pos_iff.mp hAr with ⟨_, hr⟩ | ⟨hA, _⟩
    · exact hr
    · linarith
  have hEs : 0 < E - s0 := by
    by_contra hle
    push_neg at hle
    rw [max_eq_left hle] at hApos
    exact lt_irrefl 0 hApos
  have hAeq : max 0 (E - s0) = E - s0 := max_eq_right (le_of_lt hEs)
  split_ifs with hguard
  · exact ⟨le_refl 0, le_of_lt h⟩
  · push_neg at hguard
    have hmaxlt : max s0 c < E := max_lt (by linarith) hguard
    refine ⟨Int.floor_nonneg.mpr (mul_nonneg (by linarith) (le_of_lt hrpos)), ?_⟩
    apply Int.floor_le_floor
    rw [hAeq]
    apply mul_le_mul_of_nonneg_right _ (le_of_lt hrpos)
    have := le_max_left s0 c
    linarith

lemma floor_span_neg {E s0 c r : ℚ} (h : Int.floor (max 0 (E - s0) * r) < 0) :
    Int.floor (max 0 (E - s0) * r) ≤
      (if E ≤ c then (0 : Int) else Int.floor ((E - max s0 c) * r)) ∧
    (if E ≤ c then (0 : Int) else Int.floor ((E - max s0 c) * r)) ≤ 0 := by
  have hAr : max 0 (E - s0) * r < 0 := by
    by_contra hle
    push_neg at hle
    have := Int.floor_nonneg.mpr hle
    omega
  have hApos : (0 : ℚ) < max 0 (E - s0) := by
    rcases lt_or_eq_of_le (le_max_left 0 (E - s0)) with h' | h'
    · exact h'
    · rw [← h', zero_mul] at hAr
      exact absurd hAr (lt_irrefl 0)
  have hrneg : r < 0 := by
    rcases mul_neg_iff.mp hAr with ⟨_, hr⟩ | ⟨hA, _⟩
    · exact hr
    · linarith
  have hEs : 0 < E - s0 := by
    by_contra hle
    push_neg at hle
    rw [max_eq_left hle] at hApos
    exact lt_irrefl 0 hApos
  have hAeq : max 0 (E - s0) = E - s0 := max_eq_right (le_of_lt hEs)
  split_ifs with hguard
  · exact ⟨le_of_lt h, le_refl 0⟩
  · push_neg at hguard
    have hmaxlt : max s0 c < E := max_lt (by linarith) hguard
    constructor
    · apply Int.floor_le_floor
      rw [hAeq]
      apply mul_le_mul_of_nonpos_right _ (le_of_lt hrneg)
      have := le_max_left s0 c
      linarith
    · exact Int.floor_nonpos
        (mul_nonpos_iff.mpr (Or.inl ⟨by linarith, le_of_lt hrneg⟩))

lemma round_bounds {q : ℚ} (h0 : 0 ≤ q) (h1 : q ≤ 100) :
    0 ≤ round q ∧ round q ≤ 100 := by
  rw [round_eq]
  constructor
  · refine Int.le_floor.mpr ?_
    push_cast
    linarith
  · rw [Int.floor_le_iff]
    push_cast
    linarith

/-- C3: `calculateCompletionPercentage` returns 100 when the total
occurrence count is 0, otherwise `round((total - remaining) / total * 100)`,
and its result always lies in `[0, 100]`. -/
theorem C3_completion_percentage (a : Activity) (p : Profile) (d : AsOfDate) :
    calculateCompletionPercentage a p d =
      (if calculateTotalOccurrences a p = 0 then 100
       else round ((((calculateTotalOccurrences a p -
          calculateRemainingOccurrences a p d : Int) : ℚ) /
          ((calculateTotalOccurrences a p : Int) : ℚ)) * 100)) ∧
    0 ≤ calculateCompletionPercentage a p d ∧
    calculateCompletionPercentage a p d ≤ 100 := by
  refine ⟨rfl, ?_⟩
  by_cases h0 : calculateTotalOccurrences a p = 0
  · have hpct : calculateCompletionPercentage a p d = 100 := by
      simp only [calculateCompletionPercentage, h0, if_pos]
    rw [hpct]
    exact ⟨by norm_num, by norm_num⟩
  · have hpct : calculateCompletionPercentage a p d =
        round ((((calculateTotalOccurrences a p -
          calculateRemainingOccurrences a p d : Int) : ℚ) /
          ((calculateTotalOccurrences a p : Int) : ℚ)) * 100) := by
      simp only [calculateCompletionPercentage, h0, if_neg, not_false_iff]
    set t := calculateTotalOccurrences a p with ht
    set rem := calculateRemainingOccurrences a p d with hrem
    rcases lt_or_gt_of_ne h0 with hneg | hpos
    · have hneg' : Int.floor (max 0 (resolveEndAge a p.life_expectancy_years -
          jsOr a.age_range.start 0) * convertFrequencyToYearly a.frequency) < 0 := by
        rw [← total_eq a p]
        exact hneg
      obtain ⟨hlo, hhi⟩ := floor_span_neg hneg'
      rw [← remaining_eq a p d] at hlo hhi
      rw [← total_eq a p] at hlo
      have htQ : ((t : Int) : ℚ) < 0 := by exact_mod_cast hneg
      have hloQ : ((t : Int) : ℚ) ≤ ((rem : Int) : ℚ) := by exact_mod_cast hlo
      have hhiQ : ((rem : Int) : ℚ) ≤ 0 := by exact_mod_cast hhi
      have hratio : (((t - rem : Int) : ℚ) / ((t : Int) : ℚ)) =
          (((rem : Int) : ℚ) - ((t : Int) : ℚ)) / (-((t : Int) : ℚ)) := by
        rw [show ((((rem : Int) : ℚ)) - ((t : Int) : ℚ)) =
            -(((t - rem : Int) : ℚ)) by push_cast; ring]
        exact (neg_div_neg_eq _ _).symm
      have h1 : 0 ≤ (((t - rem : Int) : ℚ) / ((t : Int) : ℚ)) := by
        rw [hratio]
        exact div_nonneg (by linarith) (by linarith)
      have h2 : (((t - rem : Int) : ℚ) / ((t : Int) : ℚ)) ≤ 1 := by
        rw [hratio]
        rw [div_le_one (by linarith)]
        linarith
      rw [hpct]
      exact round_bounds (by nlinarith) (by nlinarith)
    · have hpos' : 0 < Int.floor (max 0 (resolveEndAge a p.life_expectancy_years -
          jsOr a.age_range.start 0) * convertFrequencyToYearly a.frequency) := by
        rw [← total_eq a p]
        exact hpos
      obtain ⟨hlo, hhi⟩ := floor_span_pos hpos'
      rw [← remaining_eq a p d] at hlo hhi
      rw [← total_eq a p] at hhi
      have htQ : (0 : ℚ) < ((t : Int) : ℚ) := by exact_mod_cast hpos
      have hloQ : (0 : ℚ) ≤ ((rem : Int) : ℚ) := by exact_mod_cast hlo
      have hhiQ : ((rem : Int) : ℚ) ≤ ((t : Int) : ℚ) := by exact_mod_cast hhi
      have h1 : 0 ≤ (((t - rem : Int) : ℚ) / ((t : Int) : ℚ)) := by
        apply div_nonneg _ (le_of_lt htQ)
        push_cast
        linarith
      have h2 : (((t - rem : Int) : ℚ) / ((t : Int) : ℚ)) ≤ 1 := by
        rw [div_le_one htQ]
        push_cast
        linarith
      rw [hpct]
      exact round_bounds (by nlinarith) (by nlinarith)

lemma jsRem_of_nonneg (a b : Int) (h : 0 ≤ a) : jsRem a b = a % b := by
  unfold jsRem
  rw [if_neg (not_lt.mpr h)]

lemma int_add_self_emod (a b : Int) : (a + b) % b = a % b := by
  have := Int.add_mul_emod_self_left (a := a) (b := b) (c := 1)
  simp only [mul_one] at this
  exact this

lemma int_sub_self_emod (a b : Int) : (a - b) % b = a % b := by
  have := Int.add_mul_emod_self_left (a := a) (b := b) (c := -1)
  rw [show a + b * -1 = a - b by ring] at this
  exact this

lemma nextCard_card (n : Nat) (hn : 0 < n) (s : SeqState)
    (h : 0 ≤ s.currentCard) :
    (nextCard n s).currentCard = (s.currentCard + 1) % (n : Int) := by
  unfold nextCard
  rw [if_pos hn]
  exact jsRem_of_nonneg _ _ (by linarith)

lemma prevCard_card (n : Nat) (hn : 0 < n) (s : SeqState)
    (h : 0 ≤ s.currentCard) :
    (prevCard n s).currentCard = (s.currentCard - 1 + n) % (n : Int) := by
  unfold prevCard
  rw [if_pos hn]
  apply jsRem_of_nonneg
  have hn1 : (1 : Int) ≤ (n : Int) := by exact_mod_cast hn
  linarith

lemma nextCard_iterate_card (n : Nat) (hn : 0 < n) (s : SeqState)
    (h0 : 0 ≤ s.currentCard) (h1 : s.currentCard < (n : Int)) (k : Nat) :
    ((nextCard n)^[k] s).currentCard = (s.currentCard + k) % (n : Int) := by
  have hnz : (n : Int) ≠ 0 := by
    exact_mod_cast Nat.pos_iff_ne_zero.mp hn
  induction k with
  | zero =>
      simpa using (Int.emod_eq_of_lt h0 h1).symm
  | succ k ih =>
      rw [Function.iterate_succ_apply']
      have hk0 : 0 ≤ ((nextCard n)^[k] s).currentCard := by
        rw [ih]
        exact Int.emod_nonneg _ hnz
      rw [nextCard_card n hn _ hk0, ih, Int.emod_add_emod]
      push_cast
      ring_nf

lemma prevCard_iterate_card (n : Nat) (hn : 0 < n) (s : SeqState)
    (h0 : 0 ≤ s.currentCard) (h1 : s.currentCard < (n : Int)) (k : Nat) :
    ((prevCard n)^[k] s).currentCard = (s.currentCard - k) % (n : Int) := by
  have hnz : (n : Int) ≠ 0 := by
    exact_mod_cast Nat.pos_iff_ne_zero.mp hn
  induction k with
  | zero =>
      simpa using (Int.emod_eq_of_lt h0 h1).symm
  | succ k ih =>
      rw [Function.iterate_succ_apply']
      have hk0 : 0 ≤ ((prevCard n)^[k] s).currentCard := by
        rw [ih]
        exact Int.emod_nonneg _ hnz
      rw [prevCard_card n hn _ hk0, ih]
      rw [show ((s.currentCard - k) % (n : Int) - 1 + n) =
          ((s.currentCard - k) % (n : Int) + (n - 1)) by ring]
      rw [Int.emod_add_emod]
      rw [show (s.currentCard - k + ((n : Int) - 1)) =
          (s.currentCard - (k + 1) + n) by ring]
      rw [int_add_self_emod]
      push_cast
      ring_nf

/-- C7: on a non-empty card sequence of length `N`, applying `nextCard`
`N` times returns the focus to the original index, every intermediate
index stays within `[0, N-1]`, and the same wrap-around holds for
`prevCard`. -/
theorem C7_cyclic_wrap (n : Nat) (hn : 0 < n) (s : SeqState)
    (h0 : 0 ≤ s.currentCard) (h1 : s.currentCard < (n : Int)) :
    ((nextCard n)^[n] s).currentCard = s.currentCard ∧
    (∀ k : Nat, 0 ≤ ((nextCard n)^[k] s).currentCard ∧
      ((nextCard n)^[k] s).currentCard < (n : Int)) ∧
    ((prevCard n)^[n] s).currentCard = s.currentCard ∧
    (∀ k : Nat, 0 ≤ ((prevCard n)^[k] s).currentCard ∧
      ((prevCard n)^[k] s).currentCard < (n : Int)) := by
  have hnz : (n : Int) ≠ 0 := by
    exact_mod_cast Nat.pos_iff_ne_zero.mp hn
  have hnpos : (0 : Int) < (n : Int) := by exact_mod_cast hn
  refine ⟨?_, ?_, ?_, ?_⟩
  · rw [nextCard_iterate_card n hn s h0 h1 n, int_add_self_emod,
      Int.emod_eq_of_lt h0 h1]
  · intro k
    rw [nextCard_iterate_card n hn s h0 h1 k]
    exact ⟨Int.emod_nonneg _ hnz, Int.emod_lt_of_pos _ hnpos⟩
  · rw [prevCard_iterate_card n hn s h0 h1 n, int_sub_self_emod,
      Int.emod_eq_of_lt h0 h1]
  · intro k
    rw [prevCard_iterate_card n hn s h0 h1 k]
    exact ⟨Int.emod_nonneg _ hnz, Int.emod_lt_of_pos _ hnpos⟩

/-- Witness for `C7_cyclic_wrap` on a 3-card sequence starting at the
initial state (focus index 0). -/
theorem C7_cyclic_wrap_witness :
    0 < 3 ∧ 0 ≤ initState.currentCard ∧ initState.currentCard < (3 : Int) ∧
    (((nextCard 3)^[3] initState).currentCard = initState.currentCard ∧
     (∀ k : Nat, 0 ≤ ((nextCard 3)^[k] initState).currentCard ∧
       ((nextCard 3)^[k] initState).currentCard < (3 : Int)) ∧
     ((prevCard 3)^[3] initState).currentCard = initState.currentCard ∧
     (∀ k : Nat, 0 ≤ ((prevCard 3)^[k] initState).currentCard ∧
       ((prevCard 3)^[k] initState).currentCard < (3 : Int))) :=
  ⟨by norm_num, by decide, by decide,
   C7_cyclic_wrap 3 (by norm_num) initState (by decide) (by decide)⟩

/-- C8 counterexample: a completed leftward swipe from `clientX = 60` to
`clientX = 0` has `deltaX = -60`, well past the 50-unit threshold, yet
triggers no advance: the guard `!touchStart || !touchEnd` treats the
recorded coordinate `0` as missing (JS falsiness), so the state is
unchanged instead of advancing to the next card. -/
theorem C8_counterexample :
    handleTouchEnd 3 (some 60) (some 0) initState = initState ∧
    handleTouchEnd 3 (some 60) (some 0) initState ≠ nextCard 3 initState := by
  have h : handleTouchEnd 3 (some 60) (some 0) initState = initState := by
    norm_num [handleTouchEnd, jsOr]
  refine ⟨h, ?_⟩
  rw [h]
  intro hc
  have hcard : initState.currentCard = (nextCard 3 initState).currentCard :=
    congrArg SeqState.currentCard hc
  norm_num [initState, nextCard, jsRem] at hcard

/-- C8 (amended): for a completed gesture whose two recorded coordinates
are both non-zero, a leftward swipe with `deltaX < -50` triggers exactly
one `nextCard`, a rightward swipe with `deltaX > 50` exactly one
`prevCard`, and a drag with `|deltaX| ≤ 50` changes nothing; a recorded
coordinate of exactly `0` is treated as a missing gesture by the source's
falsiness guard and never navigates. -/
theorem C8_swipe_threshold (len : Nat) (ts te : ℚ) (s : SeqState)
    (hts : ts ≠ 0) (hte : te ≠ 0) :
    handleTouchEnd len (some ts) (some te) s =
      (if te - ts < -50 then nextCard len s
       else if 50 < te - ts then prevCard len s
       else s) := by
  have hg : ¬(jsOr (some ts) 0 = 0 ∨ jsOr (some te) 0 = 0) := by
    simp only [jsOr]
    rw [if_neg hts, if_neg hte]
    push_neg
    exact ⟨hts, hte⟩
  unfold handleTouchEnd
  rw [if_neg hg]
  simp only [jsOr, if_neg hts, if_neg hte]
  by_cases hA : (50 : ℚ) < ts - te
  · rw [if_pos hA, if_pos (by linarith : te - ts < -50)]
  · rw [if_neg hA]
    by_cases hB : ts - te < -50
    · rw [if_pos hB, if_neg (by linarith : ¬te - ts < -50),
        if_pos (by linarith : (50 : ℚ) < te - ts)]
    · rw [if_neg hB, if_neg (by linarith : ¬te - ts < -50),
        if_neg (by linarith : ¬(50 : ℚ) < te - ts)]

/-- Witness for `C8_swipe_threshold`: a swipe from 100 to 40
(`deltaX = -60`) advances to the next card. -/
theorem C8_swipe_threshold_witness :
    (100 : ℚ) ≠ 0 ∧ (40 : ℚ) ≠ 0 ∧
    handleTouchEnd 3 (some 100) (some 40) initState =
      (if (40 : ℚ) - 100 < -50 then nextCard 3 initState
       else if (50 : ℚ) < 40 - 100 then prevCard 3 initState
       else initState) :=
  ⟨by norm_num, by norm_num,
   C8_swipe_threshold 3 100 40 initState (by norm_num) (by norm_num)⟩

lemma reachable_progress_le (len : Nat) (s : SeqState)
    (h : Reachable len s) : s.progress ≤ 100 := by
  induction h with
  | init => norm_num [initState]
  | next s' e ih =>
      cases e <;> simp only [step, nextCard, prevCard] <;> (try split_ifs) <;>
        simp_all
      omega

/-- C9: in every reachable state of the card sequencer the progress ratio
lies in `[0, 100]`; it starts at 0; a progress-timer tick while
autoplaying increments it by 1, resetting to 0 once it has reached the
top; every card change (manual `nextCard`/`prevCard` on a non-empty list,
or the automatic rotation) resets it to 0; and toggling play/pause resets
it to 0. -/
theorem C9_progress_invariant (len : Nat) (s : SeqState)
    (h : Reachable len s) :
    (0 ≤ s.progress ∧ s.progress ≤ 100) ∧
    initState.progress = 0 ∧
    (step len Ev.progressTimer s).progress =
      (if s.isAutoPlaying then
        (if 100 ≤ s.progress then 0 else s.progress + 1)
       else s.progress) ∧
    (nextCard len s).progress = (if 0 < len then 0 else s.progress) ∧
    (prevCard len s).progress = (if 0 < len then 0 else s.progress) ∧
    (step len Ev.rotateTimer s).progress =
      (if s.isAutoPlaying ∧ 0 < len then 0 else s.progress) ∧
    (step len Ev.cardClick s).progress = 0 := by
  refine ⟨⟨Nat.zero_le _, reachable_progress_le len s h⟩, rfl, ?_, ?_, ?_, ?_, rfl⟩
  · simp only [step]
    split_ifs <;> rfl
  · simp only [nextCard]
    split_ifs <;> rfl
  · simp only [prevCard]
    split_ifs <;> rfl
  · simp only [step]
    split_ifs <;> rfl

/-- Witness for `C9_progress_invariant` at the initial state of a 2-card
sequence. -/
theorem C9_progress_invariant_witness :
    (0 ≤ initState.progress ∧ initState.progress ≤ 100) ∧
    initState.progress = 0 ∧
    (step 2 Ev.progressTimer initState).progress =
      (if initState.isAutoPlaying then
        (if 100 ≤ initState.progress then 0 else initState.progress + 1)
       else initState.progress) ∧
    (nextCard 2 initState).progress = (if 0 < 2 then 0 else initState.progress) ∧
    (prevCard 2 initState).progress = (if 0 < 2 then 0 else initState.progress) ∧
    (step 2 Ev.rotateTimer initState).progress =
      (if initState.isAutoPlaying ∧ 0 < 2 then 0 else initState.progress) ∧
    (step 2 Ev.cardClick initState).progress = 0 :=
  C9_progress_invariant 2 initState Reachable.init
